import Mathlib

/-!
Verification of the summary-statistics script `calculate_summary_stats.py`.

The script is embedded shallowly:
* a file is a path together with `Option (List String)` — `none` models a
  file that cannot be opened, `some lines` gives the raw text lines (the
  first line, when present, is the header);
* Python floats are modelled by `ℚ`; `round(x, 2)` is modelled by
  round-half-to-even on hundredths, matching Python's banker rounding
  (the claims proved here do not depend on tie behaviour);
* `int(...)` is modelled by a sign-and-digits parser returning `Option ℤ`
  (Python also accepts underscores and surrounding whitespace inside the
  literal; no claim depends on those forms).
-/

namespace OntQc

/-- Tokenise a character list on whitespace, dropping empty tokens: the
model of Python `line.strip().split()`. `acc` holds the current token
reversed. -/
def tokenizeWs (acc : List Char) : List Char → List (List Char)
  | [] => if acc = [] then [] else [acc.reverse]
  | c :: rest =>
    if c.isWhitespace then
      if acc = [] then tokenizeWs [] rest else acc.reverse :: tokenizeWs [] rest
    else tokenizeWs (c :: acc) rest

/-- Python `s.strip().split()`: whitespace-delimited tokens of a line. -/
def pySplit (s : String) : List String :=
  (tokenizeWs [] s.toList).map String.mk

/-- Does `pat` occur as a contiguous sublist of the character list? -/
def infixAux (pat : List Char) : List Char → Bool
  | [] => pat.isPrefixOf []
  | c :: rest => pat.isPrefixOf (c :: rest) || infixAux pat rest

/-- Python `pat in s`: substring containment. -/
def strContains (s pat : String) : Bool :=
  infixAux pat.toList s.toList

/-- Split a character list on a separator character; Python `s.split(sep)`
(always returns at least one, possibly empty, piece). -/
def splitOnCharAux (sep : Char) (acc : List Char) : List Char → List (List Char)
  | [] => [acc.reverse]
  | c :: rest =>
    if c = sep then acc.reverse :: splitOnCharAux sep [] rest
    else splitOnCharAux sep (c :: acc) rest

/-- Python `s.split("_")[0]`: the first underscore-delimited token. -/
def firstUnderscoreToken (s : String) : String :=
  String.mk ((splitOnCharAux '_' [] s.toList).headD [])

/-- Digits-only parse of a character list (empty list fails). -/
def parseDigits (cs : List Char) : Option Nat :=
  if cs = [] then none
  else if cs.all Char.isDigit then
    some (cs.foldl (fun n c => n * 10 + (c.toNat - 48)) 0)
  else none

/-- Python `int(s)` for an optionally signed decimal literal. -/
def pyInt? (s : String) : Option Int :=
  match s.toList with
  | '-' :: rest => (parseDigits rest).map (fun n => -(n : Int))
  | '+' :: rest => (parseDigits rest).map (fun n => (n : Int))
  | cs => (parseDigits cs).map (fun n => (n : Int))

/-- Python `list.index` returning `none` instead of raising `ValueError`. -/
def pyIndex (xs : List String) (x : String) : Option Nat :=
  xs.findIdx? (fun y => y = x)

/-- Locate the optional pod-filename column: try `"filename"` first, then
`"filename_pod5"` (lines 97–103 / 207–213 of the script). -/
def findFilenameIndex (header : List String) : Option Nat :=
  match pyIndex header "filename" with
  | some i => some i
  | none => pyIndex header "filename_pod5"

/-- Python `",".join(xs)` / `";".join(xs)`. -/
def joinStr (sep : String) : List String → String
  | [] => ""
  | [x] => x
  | x :: y :: xs => x ++ sep ++ joinStr sep (y :: xs)

/-- Python `sorted(...)` on strings (lexicographic on code points). -/
def sortStrings (l : List String) : List String :=
  List.insertionSort (fun a b : String => a ≤ b) l

/-- Python `read_lengths.sort(reverse=True)`: descending sort. -/
def sortDesc (l : List Int) : List Int :=
  List.insertionSort (fun a b : Int => b ≤ a) l

/-- Round-half-to-even to an integer, the model of Python `round(q)`. -/
def roundHalfEven (q : ℚ) : ℤ :=
  if q - ⌊q⌋ < 1/2 then ⌊q⌋
  else if 1/2 < q - ⌊q⌋ then ⌊q⌋ + 1
  else if Even ⌊q⌋ then ⌊q⌋ else ⌊q⌋ + 1

/-- Python `round(q, 2)`. -/
def round2 (q : ℚ) : ℚ :=
  (roundHalfEven (q * 100) : ℚ) / 100

/-- An input file: its path and, when it can be opened, its raw lines
(header first). `content = none` models an unopenable file. -/
structure SummaryFile where
  path : String
  content : Option (List String)
deriving DecidableEq

/-- The statistics row produced by either analyzer (the dictionary built
at lines 161–174 / 269–282 of the script). `kb100` … `mb1` are the
columns `100kb+` … `1Mb+`. -/
structure SummaryRecord where
  File : String
  flowcell_id : String
  read_N50 : Int
  Gb : ℚ
  coverage : ℚ
  kb100 : ℚ
  kb200 : ℚ
  kb300 : ℚ
  kb400 : ℚ
  kb500 : ℚ
  mb1 : ℚ
  whales : Nat
deriving DecidableEq

/-- The N50 scan (lines 144–150): accumulate a running sum over the
descending list and return the first element at which the running sum
reaches `target`; `0` if the scan never reaches it. -/
def n50Loop (target : ℚ) (cum : Int) : List Int → Int
  | [] => 0
  | x :: rest =>
    if target ≤ ((cum + x : Int) : ℚ) then x else n50Loop target (cum + x) rest

/-- N50 of an (already descending-sorted) list with byte total `total`:
the target is `total / 2.0`. -/
def computeN50 (l : List Int) (total : Int) : Int :=
  n50Loop ((total : ℚ) / 2) 0 l

/-- `sum(i for i in read_lengths if i >= t)`. -/
def sumGE (t : Int) (l : List Int) : Int :=
  (l.filter (fun i => t ≤ i)).sum

/-- `len([i for i in read_lengths if i >= 1000000])`. -/
def whalesCount (l : List Int) : Nat :=
  (l.filter (fun i => (1000000 : Int) ≤ i)).length

/-- One rounded bucket-coverage value: `round(sumGE t / genome_size, 2)`. -/
def bucketCov (pool : List Int) (gs : ℚ) (t : Int) : ℚ :=
  round2 ((sumGE t pool : ℚ) / gs)

/-- Build the statistics record from a collected pool. This block is
written once in the script per analyzer (lines 138–174 and 244–282),
character-identical in both; it is embedded once and used by both. -/
def mkRecord (label fcid : String) (pool : List Int) (bases : Int) (gs : ℚ) :
    SummaryRecord :=
  { File := label
    flowcell_id := fcid
    read_N50 := computeN50 (sortDesc pool) bases
    Gb := round2 ((bases : ℚ) / 1000000000)
    coverage := round2 ((bases : ℚ) / gs)
    kb100 := bucketCov (sortDesc pool) gs 100000
    kb200 := bucketCov (sortDesc pool) gs 200000
    kb300 := bucketCov (sortDesc pool) gs 300000
    kb400 := bucketCov (sortDesc pool) gs 400000
    kb500 := bucketCov (sortDesc pool) gs 500000
    mb1 := bucketCov (sortDesc pool) gs 1000000
    whales := whalesCount (sortDesc pool) }

/-- Loop state of `process_single_file`: collected lengths, byte total,
and the captured flowcell id (`None` until captured). -/
structure SingleState where
  read_lengths : List Int
  bases : Int
  flowcell_id : Option String
deriving DecidableEq

/-- One data line of `process_single_file` (lines 109–131): skip repeated
headers, skip rows too short for the length column, capture the flowcell
id on the first row long enough at the filename column while it is still
unset, then parse and collect the length. -/
def stepSingle (lengthIdx : Nat) (filenameIdx : Option Nat)
    (st : SingleState) (line : String) : SingleState :=
  if strContains line "filename" && strContains line "read_id" then st
  else
    let parts := pySplit line
    if parts.length ≤ lengthIdx then st
    else
      let st1 : SingleState :=
        match st.flowcell_id, filenameIdx with
        | none, some fi =>
          if fi < parts.length then
            { st with flowcell_id := some (firstUnderscoreToken (parts.getD fi "")) }
          else st
        | _, _ => st
      match pyInt? (parts.getD lengthIdx "") with
      | some n =>
        { st1 with read_lengths := st1.read_lengths ++ [n], bases := st1.bases + n }
      | none => st1

/-- Open one file, locate the columns and run the data-line loop
(lines 77–133). `none` when the file is unopenable or the required
column `sequence_length_template` is missing. -/
def singleScan (f : SummaryFile) : Option SingleState :=
  match f.content with
  | none => none
  | some lines =>
    match pyIndex (pySplit (lines.headD "")) "sequence_length_template" with
    | none => none
    | some lengthIdx =>
      some (lines.tail.foldl
        (stepSingle lengthIdx (findFilenameIndex (pySplit (lines.headD "")))) ⟨[], 0, none⟩)

/-- `process_single_file` (lines 66–174): `none` when nothing was
collected, otherwise the statistics record with `File` the input path and
`flowcell_id or ""` for the id. -/
def processSingleFile (f : SummaryFile) (gs : ℚ) : Option SummaryRecord :=
  match singleScan f with
  | none => none
  | some st =>
    if st.read_lengths = [] then none
    else some (mkRecord f.path (st.flowcell_id.getD "") st.read_lengths st.bases gs)

/-- Accumulated state of `process_aggregated_files` across files:
`flowcell_ids` is the Python set, kept as an insertion-ordered duplicate-free
list. -/
structure AggState where
  read_lengths : List Int
  bases : Int
  flowcell_ids : List String
deriving DecidableEq

/-- Python `set.add`. -/
def addId (ids : List String) (x : String) : List String :=
  if x ∈ ids then ids else ids ++ [x]

/-- Per-file loop state in aggregate mode: the shared pools plus the
file-local `first_data_line` flag. -/
structure FileLoopState where
  read_lengths : List Int
  bases : Int
  flowcell_ids : List String
  first_data_line : Bool
deriving DecidableEq

/-- One data line of the aggregate inner loop (lines 216–237): as
`stepSingle`, but the id capture is guarded by the `first_data_line`
flag, which is cleared only when a capture happens. -/
def stepAggLine (lengthIdx : Nat) (filenameIdx : Option Nat)
    (st : FileLoopState) (line : String) : FileLoopState :=
  if strContains line "filename" && strContains line "read_id" then st
  else
    let parts := pySplit line
    if parts.length ≤ lengthIdx then st
    else
      let st1 : FileLoopState :=
        if st.first_data_line then
          match filenameIdx with
          | some fi =>
            if fi < parts.length then
              { st with
                  flowcell_ids := addId st.flowcell_ids (firstUnderscoreToken (parts.getD fi ""))
                  first_data_line := false }
            else st
          | none => st
        else st
      match pyInt? (parts.getD lengthIdx "") with
      | some n =>
        { st1 with read_lengths := st1.read_lengths ++ [n], bases := st1.bases + n }
      | none => st1

/-- Process one file of the aggregate list (lines 188–239): unopenable
files and files missing the required column leave the state unchanged. -/
def stepAggFile (st : AggState) (f : SummaryFile) : AggState :=
  match f.content with
  | none => st
  | some lines =>
    match pyIndex (pySplit (lines.headD "")) "sequence_length_template" with
    | none => st
    | some lengthIdx =>
      let fst := lines.tail.foldl
        (stepAggLine lengthIdx (findFilenameIndex (pySplit (lines.headD ""))))
        ⟨st.read_lengths, st.bases, st.flowcell_ids, true⟩
      ⟨fst.read_lengths, fst.bases, fst.flowcell_ids⟩

/-- The aggregate accumulation over the whole file list. -/
def aggScan (fs : List SummaryFile) : AggState :=
  fs.foldl stepAggFile ⟨[], 0, []⟩

/-- `process_aggregated_files` (lines 176–282): one shared pool over all
files; `File` is the comma-join of every path, `flowcell_id` the
semicolon-join of the sorted id set (empty string for an empty set). -/
def processAggregatedFiles (fs : List SummaryFile) (gs : ℚ) : Option SummaryRecord :=
  let st := aggScan fs
  if st.read_lengths = [] then none
  else
    let fcStr := if st.flowcell_ids = [] then "" else joinStr ";" (sortStrings st.flowcell_ids)
    some (mkRecord (joinStr "," (fs.map SummaryFile.path)) fcStr st.read_lengths st.bases gs)

/-- The read-length pool the single-file analyzer collects for a file
(empty when the file is unopenable or the required column is missing). -/
def collectedLengths (f : SummaryFile) : List Int :=
  match singleScan f with
  | none => []
  | some st => st.read_lengths

/-- A data line that is structurally valid (not a repeated header, long
enough for the length column) and also long enough for the filename
column at index `fi`: the lines from which a flowcell id can be taken. -/
def lineEligible (li fi : Nat) (line : String) : Bool :=
  !(strContains line "filename" && strContains line "read_id") &&
    decide (li < (pySplit line).length) && decide (fi < (pySplit line).length)

/-- Characterisation of flowcell-id capture: the id taken from the first
eligible data line, if any; `none` when the filename column is absent. -/
def flowcellSpec (li : Nat) (fidx : Option Nat) (lines : List String) : Option String :=
  match fidx with
  | none => none
  | some fi =>
    ((lines.filter (lineEligible li fi)).head?).map
      (fun l => firstUnderscoreToken ((pySplit l).getD fi ""))

/-- A file the aggregate analyzer skips: unopenable, or its header lacks
the required `sequence_length_template` column. -/
def badAggFile (f : SummaryFile) : Prop :=
  f.content = none ∨
    ∃ lines, f.content = some lines ∧
      pyIndex (pySplit (lines.headD "")) "sequence_length_template" = none

/-- Two records that agree on every computed field (everything except the
`File` label). -/
def agreeExceptFile (a b : SummaryRecord) : Prop :=
  a.flowcell_id = b.flowcell_id ∧ a.read_N50 = b.read_N50 ∧ a.Gb = b.Gb ∧
    a.coverage = b.coverage ∧ a.kb100 = b.kb100 ∧ a.kb200 = b.kb200 ∧
    a.kb300 = b.kb300 ∧ a.kb400 = b.kb400 ∧ a.kb500 = b.kb500 ∧
    a.mb1 = b.mb1 ∧ a.whales = b.whales

/-- Lift `agreeExceptFile` to the analyzers' optional results: both absent,
or both present and agreeing on every computed field. -/
def optionAgreeExceptFile : Option SummaryRecord → Option SummaryRecord → Prop
  | none, none => True
  | some a, some b => agreeExceptFile a b
  | _, _ => False

/-- The six bucket thresholds of the script (lines 153–158). -/
def thresholds : List Int :=
  [100000, 200000, 300000, 400000, 500000, 1000000]

/-- The property claimed of the N50 reduction: at the first element of the
descending-sorted pool where the running sum reaches half the total, the
cumulative sum is at least `total / 2`, and the cumulative sum without
that element is strictly below `total / 2`. -/
def n50ClaimProperty (pool : List Int) : Prop :=
  ∃ (i : Nat) (hi : i < (sortDesc pool).length),
    computeN50 (sortDesc pool) pool.sum = (sortDesc pool).get ⟨i, hi⟩ ∧
    (∀ j < i, ((((sortDesc pool).take (j+1)).sum : ℚ) < (pool.sum : ℚ) / 2)) ∧
    (pool.sum : ℚ) / 2 ≤ (((sortDesc pool).take (i+1)).sum : ℚ) ∧
    (((sortDesc pool).take i).sum : ℚ) < (pool.sum : ℚ) / 2

end OntQc

namespace OntQc

lemma roundHalfEven_le (q : ℚ) : (roundHalfEven q : ℚ) ≤ q + 1/2 := by
  have hfl : (⌊q⌋ : ℚ) ≤ q := Int.floor_le q
  have hfl2 : q < ⌊q⌋ + 1 := Int.lt_floor_add_one q
  unfold roundHalfEven
  split_ifs with h1 h2 h3 <;> push_cast <;> linarith

lemma le_roundHalfEven (q : ℚ) : q - 1/2 ≤ (roundHalfEven q : ℚ) := by
  have hfl : (⌊q⌋ : ℚ) ≤ q := Int.floor_le q
  have hfl2 : q < ⌊q⌋ + 1 := Int.lt_floor_add_one q
  unfold roundHalfEven
  split_ifs with h1 h2 h3 <;> push_cast <;> linarith

lemma roundHalfEven_mono {a b : ℚ} (h : a ≤ b) : roundHalfEven a ≤ roundHalfEven b := by
  by_contra hlt
  push_neg at hlt
  have hstep : (roundHalfEven b : ℚ) + 1 ≤ (roundHalfEven a : ℚ) := by
    exact_mod_cast Int.add_one_le_iff.mpr hlt
  have h1 := roundHalfEven_le a
  have h2 := le_roundHalfEven b
  have hab : a = b := le_antisymm h (by linarith)
  rw [hab] at hlt
  exact lt_irrefl _ hlt

lemma round2_mono {a b : ℚ} (h : a ≤ b) : round2 a ≤ round2 b := by
  unfold round2
  have hm : roundHalfEven (a * 100) ≤ roundHalfEven (b * 100) :=
    roundHalfEven_mono (by linarith)
  have : (roundHalfEven (a * 100) : ℚ) ≤ (roundHalfEven (b * 100) : ℚ) := by exact_mod_cast hm
  linarith

lemma roundHalfEven_intCast (n : ℤ) : roundHalfEven ((n : ℚ)) = n := by
  unfold roundHalfEven
  rw [Int.floor_intCast]
  split_ifs with h1 h2 h3 <;> first | rfl | (exfalso; push_cast at h1 h2; linarith)

lemma round2_intCast (n : ℤ) : round2 ((n : ℚ)) = (n : ℚ) := by
  unfold round2
  rw [show ((n : ℚ) * 100) = ((n * 100 : ℤ) : ℚ) by push_cast; ring, roundHalfEven_intCast]
  push_cast
  field_simp

lemma round2_small {q : ℚ} (h0 : 0 ≤ q * 100) (h1 : q * 100 < 1/2) : round2 q = 0 := by
  unfold round2 roundHalfEven
  have hfl : ⌊q * 100⌋ = 0 := Int.floor_eq_zero_iff.mpr (Set.mem_Ico.mpr ⟨h0, by linarith⟩)
  rw [hfl]
  rw [if_pos (by push_cast; linarith)]
  norm_num

lemma round2_zero : round2 0 = 0 := by
  unfold round2
  rw [show ((0 : ℚ) * 100) = ((0 : ℤ) : ℚ) by norm_num, roundHalfEven_intCast]
  norm_num

lemma sumGE_antitone (l : List Int) {t1 t2 : Int} (h0 : 0 ≤ t1) (h12 : t1 ≤ t2) :
    sumGE t2 l ≤ sumGE t1 l := by
  induction l with
  | nil => simp [sumGE]
  | cons x xs ih =>
    by_cases h2 : t2 ≤ x
    · have h1 : t1 ≤ x := le_trans h12 h2
      simp only [sumGE, List.filter_cons, decide_eq_true h1, decide_eq_true h2,
        if_true, List.sum_cons]
      exact add_le_add_left ih x
    · by_cases h1 : t1 ≤ x
      · simp only [sumGE, List.filter_cons, decide_eq_true h1,
          decide_eq_false h2, if_true, if_false, List.sum_cons]
        have hx : 0 ≤ x := le_trans h0 h1
        calc (List.filter (fun i => decide (t2 ≤ i)) xs).sum ≤ (List.filter (fun i => decide (t1 ≤ i)) xs).sum := ih
        _ ≤ x + (List.filter (fun i => decide (t1 ≤ i)) xs).sum := by linarith
      · simp only [sumGE, List.filter_cons, decide_eq_false h1, decide_eq_false h2, if_false]
        exact ih


lemma sortDesc_perm (l : List Int) : (sortDesc l).Perm l := List.perm_insertionSort _ l

lemma sortDesc_sum (l : List Int) : (sortDesc l).sum = l.sum := (sortDesc_perm l).sum_eq

lemma n50Loop_spec (target : ℚ) (l : List Int) :
    ∀ (cum : Int), ((cum : ℚ) < target) → (target ≤ (cum : ℚ) + (l.sum : ℚ)) →
    ∃ (i : Nat) (hi : i < l.length),
      n50Loop target cum l = l.get ⟨i, hi⟩ ∧
      target ≤ (cum : ℚ) + ((l.take (i+1)).sum : ℚ) ∧
      (cum : ℚ) + ((l.take i).sum : ℚ) < target ∧
      ∀ j < i, (cum : ℚ) + ((l.take (j+1)).sum : ℚ) < target := by
  induction l with
  | nil =>
    intro cum h1 h2
    exfalso
    simp only [List.sum_nil, Int.cast_zero, add_zero] at h2
    linarith
  | cons x xs ih =>
    intro cum h1 h2
    rw [List.sum_cons] at h2
    by_cases hx : target ≤ ((cum + x : Int) : ℚ)
    · refine ⟨0, by simp, ?_, ?_, ?_, ?_⟩
      · simp only [n50Loop]
        rw [if_pos hx]
        simp
      · rw [List.take_succ_cons, List.take_zero, List.sum_cons, List.sum_nil]
        push_cast at hx ⊢
        linarith
      · simpa using h1
      · intro j hj
        exact absurd hj (Nat.not_lt_zero j)
    · push_neg at hx
      have h2x : ((cum + x : Int) : ℚ) < target := hx
      have h2r : target ≤ ((cum + x : Int) : ℚ) + (xs.sum : ℚ) := by
        push_cast at h2 ⊢
        linarith
      obtain ⟨i, hi, hval, hc, hd, hfirst⟩ := ih (cum + x) h2x h2r
      refine ⟨i + 1, by simpa using Nat.succ_lt_succ hi, ?_, ?_, ?_, ?_⟩
      · simp only [n50Loop]
        rw [if_neg (not_le.mpr hx)]
        rw [hval]
        simp
      · rw [List.take_succ_cons, List.sum_cons]
        push_cast at hc ⊢
        linarith
      · rw [List.take_succ_cons, List.sum_cons]
        push_cast at hd ⊢
        linarith
      · intro j hj
        match j, hj with
        | 0, _ =>
          rw [List.take_succ_cons, List.take_zero, List.sum_cons, List.sum_nil]
          push_cast at h2x ⊢
          linarith
        | (k+1), hj =>
          have hk : k < i := by omega
          have hf := hfirst k hk
          rw [List.take_succ_cons, List.sum_cons]
          push_cast at hf ⊢
          linarith

lemma computeN50_pos {pool : List Int} {total : Int} (hpos : 0 < total)
    (heq : total = pool.sum) : 0 < computeN50 (sortDesc pool) total := by
  have hsum : (sortDesc pool).sum = total := by rw [sortDesc_sum, heq]
  have htot : (0 : ℚ) < (total : ℚ) := by exact_mod_cast hpos
  have h1 : (((0 : Int)) : ℚ) < (total : ℚ) / 2 := by push_cast; linarith
  have h2 : (total : ℚ) / 2 ≤ (((0 : Int)) : ℚ) + ((sortDesc pool).sum : ℚ) := by
    rw [hsum]; push_cast; linarith
  obtain ⟨i, hi, hval, hc, hd, _⟩ := n50Loop_spec ((total : ℚ)/2) (sortDesc pool) 0 h1 h2
  rw [computeN50, hval, List.get_eq_getElem]
  have htake := List.sum_take_succ (sortDesc pool) i hi
  have hq : (0:ℚ) < (((sortDesc pool)[i] : Int) : ℚ) := by
    rw [htake] at hc
    push_cast at hc hd
    linarith
  exact_mod_cast hq

lemma stepSingle_bases (li : Nat) (fidx : Option Nat) (st : SingleState) (line : String)
    (h : st.bases = st.read_lengths.sum) :
    (stepSingle li fidx st line).bases = (stepSingle li fidx st line).read_lengths.sum := by
  simp only [stepSingle]
  repeat' split
  all_goals try exact h
  all_goals simp_all [List.sum_append]

lemma foldl_stepSingle_bases (li : Nat) (fidx : Option Nat) (lines : List String) :
    ∀ st : SingleState, st.bases = st.read_lengths.sum →
    (lines.foldl (stepSingle li fidx) st).bases =
      (lines.foldl (stepSingle li fidx) st).read_lengths.sum := by
  induction lines with
  | nil => intro st h; simpa using h
  | cons line rest ih =>
    intro st h
    exact ih _ (stepSingle_bases li fidx st line h)

lemma singleScan_bases {f : SummaryFile} {st : SingleState} (h : singleScan f = some st) :
    st.bases = st.read_lengths.sum := by
  unfold singleScan at h
  split at h
  · exact absurd h (by simp)
  · split at h
    · exact absurd h (by simp)
    · rw [Option.some.injEq] at h
      rw [← h]
      exact foldl_stepSingle_bases _ _ _ _ (by simp)

lemma stepAggLine_bases (li : Nat) (fidx : Option Nat) (st : FileLoopState) (line : String)
    (h : st.bases = st.read_lengths.sum) :
    (stepAggLine li fidx st line).bases = (stepAggLine li fidx st line).read_lengths.sum := by
  simp only [stepAggLine]
  repeat' split
  all_goals try exact h
  all_goals simp_all [List.sum_append]

lemma foldl_stepAggLine_bases (li : Nat) (fidx : Option Nat) (lines : List String) :
    ∀ st : FileLoopState, st.bases = st.read_lengths.sum →
    (lines.foldl (stepAggLine li fidx) st).bases =
      (lines.foldl (stepAggLine li fidx) st).read_lengths.sum := by
  induction lines with
  | nil => intro st h; simpa using h
  | cons line rest ih =>
    intro st h
    exact ih _ (stepAggLine_bases li fidx st line h)

lemma stepAggFile_bases (st : AggState) (f : SummaryFile)
    (h : st.bases = st.read_lengths.sum) :
    (stepAggFile st f).bases = (stepAggFile st f).read_lengths.sum := by
  simp only [stepAggFile]
  repeat' split
  all_goals try exact h
  all_goals exact foldl_stepAggLine_bases _ _ _ _ h

lemma aggScan_bases (fs : List SummaryFile) :
    (aggScan fs).bases = (aggScan fs).read_lengths.sum := by
  unfold aggScan
  have hgen : ∀ (l : List SummaryFile) (st : AggState), st.bases = st.read_lengths.sum →
      (l.foldl stepAggFile st).bases = (l.foldl stepAggFile st).read_lengths.sum := by
    intro l
    induction l with
    | nil => intro st h; simpa using h
    | cons g rest ih => intro st h; exact ih _ (stepAggFile_bases st g h)
  exact hgen fs ⟨[], 0, []⟩ (by simp)

lemma stepSingle_flowcell_some (li : Nat) (fidx : Option Nat) (st : SingleState)
    (line : String) (x : String) (h : st.flowcell_id = some x) :
    (stepSingle li fidx st line).flowcell_id = some x := by
  simp only [stepSingle]
  repeat' split
  all_goals simp_all

lemma foldl_stepSingle_flowcell_some (li : Nat) (fidx : Option Nat) (lines : List String) :
    ∀ (st : SingleState) (x : String), st.flowcell_id = some x →
    (lines.foldl (stepSingle li fidx) st).flowcell_id = some x := by
  induction lines with
  | nil => intro st x h; simpa using h
  | cons line rest ih =>
    intro st x h
    exact ih _ x (stepSingle_flowcell_some li fidx st line x h)

lemma flowcellSpec_cons (li fi : Nat) (line : String) (rest : List String) :
    flowcellSpec li (some fi) (line :: rest) =
      if lineEligible li fi line then some (firstUnderscoreToken ((pySplit line).getD fi ""))
      else flowcellSpec li (some fi) rest := by
  by_cases h : lineEligible li fi line <;>
    simp [flowcellSpec, List.filter_cons, h]

lemma stepSingle_flowcell_of_none (li : Nat) (fidx : Option Nat) (st : SingleState)
    (line : String) (h : st.flowcell_id = none) :
    (stepSingle li fidx st line).flowcell_id =
      (match fidx with
       | none => none
       | some fi =>
         if lineEligible li fi line then some (firstUnderscoreToken ((pySplit line).getD fi ""))
         else none) := by
  cases fidx with
  | none =>
    simp only [stepSingle]
    repeat' split
    all_goals simp_all
  | some fi =>
    by_cases hskip : (strContains line "filename" && strContains line "read_id") = true
    · have hel : lineEligible li fi line = false := by
        simp [lineEligible, hskip]
      simp only [stepSingle, hskip, if_true, hel, if_false, h]
      simp
    · by_cases hlen : (pySplit line).length ≤ li
      · have hlt : ¬ (li < (pySplit line).length) := by omega
        have hel : lineEligible li fi line = false := by
          simp [lineEligible, hlt]
        simp [stepSingle, hskip, hlen, hel, h]
      · have hlen2 : li < (pySplit line).length := by omega
        have hsk2 : (strContains line "filename" && strContains line "read_id") = false := by
          revert hskip
          cases (strContains line "filename" && strContains line "read_id") <;> simp
        by_cases hfi : fi < (pySplit line).length
        · have hel : lineEligible li fi line = true := by
            simp [lineEligible, hsk2, hlen2, hfi]
          cases hpy : pyInt? ((pySplit line).getD li "") <;>
            (simp only [List.getD_eq_getElem?_getD] at hpy
             simp [stepSingle, hskip, hlen, hel, h, hpy, hfi])
        · have hel : lineEligible li fi line = false := by
            simp [lineEligible, hfi]
          cases hpy : pyInt? ((pySplit line).getD li "") <;>
            (simp only [List.getD_eq_getElem?_getD] at hpy
             simp [stepSingle, hskip, hlen, hel, h, hpy, hfi])

lemma foldl_stepSingle_flowcell (li : Nat) (fidx : Option Nat) (lines : List String) :
    ∀ st : SingleState, st.flowcell_id = none →
    (lines.foldl (stepSingle li fidx) st).flowcell_id = flowcellSpec li fidx lines := by
  induction lines with
  | nil =>
    intro st h
    cases fidx <;> simpa [flowcellSpec] using h
  | cons line rest ih =>
    intro st h
    rw [List.foldl_cons]
    cases fidx with
    | none =>
      have hstep := stepSingle_flowcell_of_none li none st line h
      simp only at hstep
      rw [ih _ hstep]
      simp [flowcellSpec]
    | some fi =>
      have hstep := stepSingle_flowcell_of_none li (some fi) st line h
      simp only at hstep
      rw [flowcellSpec_cons]
      by_cases hel : lineEligible li fi line = true
      · rw [if_pos hel] at hstep ⊢
        exact foldl_stepSingle_flowcell_some li (some fi) rest _ _ hstep
      · rw [if_neg hel] at hstep ⊢
        exact ih _ hstep

lemma singleScan_flowcell {f : SummaryFile} {lines : List String} {li : Nat}
    (hc : f.content = some lines)
    (hli : pyIndex (pySplit (lines.headD "")) "sequence_length_template" = some li) :
    Option.map SingleState.flowcell_id (singleScan f) =
      some (flowcellSpec li (findFilenameIndex (pySplit (lines.headD ""))) lines.tail) := by
  unfold singleScan
  rw [hc]
  simp only [hli, Option.map_some]
  exact congrArg some (foldl_stepSingle_flowcell li _ lines.tail ⟨[], 0, none⟩ rfl)

lemma stepAggLine_of_false (li : Nat) (fidx : Option Nat) (st : FileLoopState) (line : String)
    (h : st.first_data_line = false) :
    (stepAggLine li fidx st line).flowcell_ids = st.flowcell_ids ∧
    (stepAggLine li fidx st line).first_data_line = false := by
  simp only [stepAggLine]
  repeat' split
  all_goals simp_all

lemma foldl_stepAggLine_false (li : Nat) (fidx : Option Nat) (lines : List String) :
    ∀ st : FileLoopState, st.first_data_line = false →
    (lines.foldl (stepAggLine li fidx) st).flowcell_ids = st.flowcell_ids := by
  induction lines with
  | nil => intro st _; rfl
  | cons line rest ih =>
    intro st h
    obtain ⟨h1, h2⟩ := stepAggLine_of_false li fidx st line h
    rw [List.foldl_cons, ih _ h2, h1]

lemma stepAggLine_of_true (li : Nat) (fidx : Option Nat) (st : FileLoopState) (line : String)
    (h : st.first_data_line = true) :
    ((stepAggLine li fidx st line).flowcell_ids,
     (stepAggLine li fidx st line).first_data_line) =
      (match fidx with
       | none => (st.flowcell_ids, true)
       | some fi =>
         if lineEligible li fi line
         then (addId st.flowcell_ids (firstUnderscoreToken ((pySplit line).getD fi "")), false)
         else (st.flowcell_ids, true)) := by
  cases fidx with
  | none =>
    simp only [stepAggLine]
    repeat' split
    all_goals simp_all
  | some fi =>
    by_cases hskip : (strContains line "filename" && strContains line "read_id") = true
    · have hel : lineEligible li fi line = false := by
        simp [lineEligible, hskip]
      simp [stepAggLine, hskip, hel, h]
    · by_cases hlen : (pySplit line).length ≤ li
      · have hlt : ¬ (li < (pySplit line).length) := by omega
        have hel : lineEligible li fi line = false := by
          simp [lineEligible, hlt]
        simp [stepAggLine, hskip, hlen, hel, h]
      · have hlen2 : li < (pySplit line).length := by omega
        have hsk2 : (strContains line "filename" && strContains line "read_id") = false := by
          revert hskip
          cases (strContains line "filename" && strContains line "read_id") <;> simp
        by_cases hfi : fi < (pySplit line).length
        · have hel : lineEligible li fi line = true := by
            simp [lineEligible, hsk2, hlen2, hfi]
          cases hpy : pyInt? ((pySplit line).getD li "") <;>
            (simp only [List.getD_eq_getElem?_getD] at hpy
             simp [stepAggLine, hskip, hlen, hel, h, hpy, hfi])
        · have hel : lineEligible li fi line = false := by
            simp [lineEligible, hfi]
          cases hpy : pyInt? ((pySplit line).getD li "") <;>
            (simp only [List.getD_eq_getElem?_getD] at hpy
             simp [stepAggLine, hskip, hlen, hel, h, hpy, hfi])

lemma foldl_stepAggLine_true (li : Nat) (fidx : Option Nat) (lines : List String) :
    ∀ st : FileLoopState, st.first_data_line = true →
    (lines.foldl (stepAggLine li fidx) st).flowcell_ids =
      (match flowcellSpec li fidx lines with
       | none => st.flowcell_ids
       | some x => addId st.flowcell_ids x) := by
  induction lines with
  | nil => intro st _; cases fidx <;> simp [flowcellSpec]
  | cons line rest ih =>
    intro st h
    rw [List.foldl_cons]
    cases fidx with
    | none =>
      have hstep := stepAggLine_of_true li none st line h
      simp only [Prod.mk.injEq] at hstep
      obtain ⟨hids, hflag⟩ := hstep
      rw [ih _ hflag, hids]
      simp [flowcellSpec]
    | some fi =>
      have hstep := stepAggLine_of_true li (some fi) st line h
      simp only at hstep
      rw [flowcellSpec_cons]
      by_cases hel : lineEligible li fi line = true
      · rw [if_pos hel] at hstep ⊢
        rw [Prod.mk.injEq] at hstep
        obtain ⟨hids, hflag⟩ := hstep
        rw [foldl_stepAggLine_false li (some fi) rest _ hflag, hids]
      · rw [if_neg hel] at hstep ⊢
        rw [Prod.mk.injEq] at hstep
        obtain ⟨hids, hflag⟩ := hstep
        rw [ih _ hflag, hids]

lemma step_lengths_agree (li : Nat) (fidx : Option Nat) (line : String)
    (ast : FileLoopState) (sst : SingleState)
    (hl : ast.read_lengths = sst.read_lengths) (hb : ast.bases = sst.bases) :
    (stepAggLine li fidx ast line).read_lengths = (stepSingle li fidx sst line).read_lengths ∧
    (stepAggLine li fidx ast line).bases = (stepSingle li fidx sst line).bases := by
  by_cases hskip : (strContains line "filename" && strContains line "read_id") = true
  · simp [stepAggLine, stepSingle, hskip, hl, hb]
  · by_cases hlen : (pySplit line).length ≤ li
    · simp [stepAggLine, stepSingle, hskip, hlen, hl, hb]
    · cases hpy : pyInt? ((pySplit line).getD li "") <;>
        (simp only [List.getD_eq_getElem?_getD] at hpy
         simp only [stepAggLine, stepSingle, hskip, hlen, hpy, if_false]
         repeat' split
         all_goals simp_all)

lemma foldl_lengths_agree (li : Nat) (fidx : Option Nat) (lines : List String) :
    ∀ (ast : FileLoopState) (sst : SingleState),
      ast.read_lengths = sst.read_lengths → ast.bases = sst.bases →
      ((lines.foldl (stepAggLine li fidx) ast).read_lengths =
        (lines.foldl (stepSingle li fidx) sst).read_lengths ∧
       (lines.foldl (stepAggLine li fidx) ast).bases =
        (lines.foldl (stepSingle li fidx) sst).bases) := by
  induction lines with
  | nil => intro ast sst hl hb; exact ⟨hl, hb⟩
  | cons line rest ih =>
    intro ast sst hl hb
    obtain ⟨h1, h2⟩ := step_lengths_agree li fidx line ast sst hl hb
    exact ih _ _ h1 h2

lemma round2_mul100_int (q : ℚ) (n : ℤ) (h : q * 100 = (n : ℚ)) :
    round2 q = (n : ℚ) / 100 := by
  unfold round2
  rw [h, roundHalfEven_intCast]

lemma processSingleFile_eq_some {f : SummaryFile} {st : SingleState} (gs : ℚ)
    (h : singleScan f = some st) (hne : st.read_lengths ≠ []) :
    processSingleFile f gs =
      some (mkRecord f.path (st.flowcell_id.getD "") st.read_lengths st.bases gs) := by
  unfold processSingleFile
  rw [h]
  exact if_neg hne

lemma processAggregatedFiles_eq_some (fs : List SummaryFile) (gs : ℚ)
    (hne : (aggScan fs).read_lengths ≠ []) :
    processAggregatedFiles fs gs =
      some (mkRecord (joinStr "," (fs.map SummaryFile.path))
        (if (aggScan fs).flowcell_ids = [] then ""
         else joinStr ";" (sortStrings (aggScan fs).flowcell_ids))
        (aggScan fs).read_lengths (aggScan fs).bases gs) := by
  simp only [processAggregatedFiles]
  rw [if_neg hne]

lemma stepAggFile_bad (st : AggState) {f : SummaryFile} (hbad : badAggFile f) :
    stepAggFile st f = st := by
  unfold stepAggFile
  rcases hbad with h | ⟨lines, hc, hli⟩
  · rw [h]
  · rw [hc]
    simp only [hli]

lemma singleScan_eq {f : SummaryFile} {lines : List String} {li : Nat}
    (hc : f.content = some lines)
    (hli : pyIndex (pySplit (lines.headD "")) "sequence_length_template" = some li) :
    singleScan f =
      some (lines.tail.foldl
        (stepSingle li (findFilenameIndex (pySplit (lines.headD "")))) ⟨[], 0, none⟩) := by
  unfold singleScan
  rw [hc]
  simp only [hli]

lemma stepAggFile_eq (st : AggState) {f : SummaryFile} {lines : List String} {li : Nat}
    (hc : f.content = some lines)
    (hli : pyIndex (pySplit (lines.headD "")) "sequence_length_template" = some li) :
    stepAggFile st f =
      ⟨(lines.tail.foldl (stepAggLine li (findFilenameIndex (pySplit (lines.headD ""))))
          ⟨st.read_lengths, st.bases, st.flowcell_ids, true⟩).read_lengths,
       (lines.tail.foldl (stepAggLine li (findFilenameIndex (pySplit (lines.headD ""))))
          ⟨st.read_lengths, st.bases, st.flowcell_ids, true⟩).bases,
       (lines.tail.foldl (stepAggLine li (findFilenameIndex (pySplit (lines.headD ""))))
          ⟨st.read_lengths, st.bases, st.flowcell_ids, true⟩).flowcell_ids⟩ := by
  unfold stepAggFile
  rw [hc]
  simp only [hli]

lemma foldl_stepSingle_lengths_of_none (li : Nat) (fidx : Option Nat) (lines : List String) :
    ∀ st : SingleState, (∀ l ∈ lines, pyInt? ((pySplit l).getD li "") = none) →
    (lines.foldl (stepSingle li fidx) st).read_lengths = st.read_lengths := by
  induction lines with
  | nil => intro st _; rfl
  | cons line rest ih =>
    intro st h
    have hline : pyInt? ((pySplit line).getD li "") = none := h line (by simp)
    have hstep : (stepSingle li fidx st line).read_lengths = st.read_lengths := by
      simp only [stepSingle, hline]
      repeat' split
      all_goals rfl
    rw [List.foldl_cons, ih _ (fun l hl => h l (by simp [hl])), hstep]

lemma bucket_zero {t : Int} {pool : List Int} (gs : ℚ) (h : sumGE t pool = 0) :
    round2 ((sumGE t pool : ℚ) / gs) = 0 := by
  rw [h]
  norm_num [round2_zero]

lemma mkRecord_eval (label fcid : String) (pool : List Int) (bases : Int) (gs : ℚ)
    (n50 : Int) (gb cov b1 b2 b3 b4 b5 b6 : ℚ) (wh : Nat)
    (hn : computeN50 (sortDesc pool) bases = n50)
    (hgb : round2 ((bases : ℚ) / 1000000000) = gb)
    (hcov : round2 ((bases : ℚ) / gs) = cov)
    (h1 : round2 ((sumGE 100000 (sortDesc pool) : ℚ) / gs) = b1)
    (h2 : round2 ((sumGE 200000 (sortDesc pool) : ℚ) / gs) = b2)
    (h3 : round2 ((sumGE 300000 (sortDesc pool) : ℚ) / gs) = b3)
    (h4 : round2 ((sumGE 400000 (sortDesc pool) : ℚ) / gs) = b4)
    (h5 : round2 ((sumGE 500000 (sortDesc pool) : ℚ) / gs) = b5)
    (h6 : round2 ((sumGE 1000000 (sortDesc pool) : ℚ) / gs) = b6)
    (hw : whalesCount (sortDesc pool) = wh) :
    mkRecord label fcid pool bases gs =
      ⟨label, fcid, n50, gb, cov, b1, b2, b3, b4, b5, b6, wh⟩ := by
  unfold mkRecord bucketCov
  rw [hn, hgb, hcov, h1, h2, h3, h4, h5, h6, hw]

/-- Claim C1 (counterexample): the claimed N50 crossing property fails on the
non-empty pool `[0]`: the crossing happens at the single element `0`, but
removing it leaves the cumulative sum `0`, which is not strictly below
`total / 2 = 0`. -/
theorem C1_counterexample : ([(0 : Int)] ≠ []) ∧ ¬ n50ClaimProperty [0] := by
  refine ⟨by simp, ?_⟩
  intro hprop
  obtain ⟨i, hi, _, _, _, hdrop⟩ := hprop
  have hs : sortDesc [(0 : Int)] = [0] := by decide
  rw [hs] at hi hdrop
  have hi0 : i = 0 := by simpa [Nat.lt_one_iff] using hi
  subst hi0
  norm_num at hdrop

/-- Claim C1 (amended): for every pool of read lengths whose total is
positive, the N50 computed by the reduction is the value at the first
position of the descending-sorted pool where the running sum reaches
`total / 2`; the cumulative sum through that element is at least
`total / 2` and the cumulative sum without it is strictly below
`total / 2`. -/
theorem C1_amended (pool : List Int) (hpos : 0 < pool.sum) : n50ClaimProperty pool := by
  have htot : (0 : ℚ) < (pool.sum : ℚ) := by exact_mod_cast hpos
  have h1 : (((0 : Int)) : ℚ) < (pool.sum : ℚ) / 2 := by
    rw [Int.cast_zero]
    linarith
  have h2 : (pool.sum : ℚ) / 2 ≤ (((0 : Int)) : ℚ) + ((sortDesc pool).sum : ℚ) := by
    rw [sortDesc_sum, Int.cast_zero, zero_add]
    linarith
  obtain ⟨i, hi, hval, hc, hd, hfirst⟩ :=
    n50Loop_spec ((pool.sum : ℚ) / 2) (sortDesc pool) 0 h1 h2
  refine ⟨i, hi, hval, ?_, ?_, ?_⟩
  · intro j hj
    have := hfirst j hj
    push_cast at this ⊢
    linarith
  · push_cast at hc ⊢
    linarith
  · push_cast at hd ⊢
    linarith

/-- Witness for C1 (amended) at the pool `[3, 1]`. -/
theorem C1_amended_witness : 0 < ([3, 1] : List Int).sum ∧ n50ClaimProperty [3, 1] :=
  ⟨by decide, C1_amended [3, 1] (by decide)⟩

/-- Claim C6: for the same read pool and positive genome size, the rounded
bucket coverage at a lower threshold is at least the rounded bucket
coverage at a higher threshold. -/
theorem C6_bucket_monotone (pool : List Int) (gs : ℚ) (hgs : 0 < gs)
    (t1 t2 : Int) (h1 : t1 ∈ thresholds) (h2 : t2 ∈ thresholds) (hlt : t1 < t2) :
    bucketCov pool gs t2 ≤ bucketCov pool gs t1 := by
  have ht1 : (0 : Int) ≤ t1 := by
    have hall : ∀ t ∈ thresholds, (0 : Int) ≤ t := by decide
    exact hall t1 h1
  have hsum : sumGE t2 pool ≤ sumGE t1 pool := sumGE_antitone pool ht1 (le_of_lt hlt)
  unfold bucketCov
  apply round2_mono
  have hq : ((sumGE t2 pool : Int) : ℚ) ≤ ((sumGE t1 pool : Int) : ℚ) := by exact_mod_cast hsum
  exact (div_le_div_iff_of_pos_right hgs).mpr hq

/-- Witness for C6 at the pool `[150000]`, genome size 1, thresholds
100000 and 200000. -/
theorem C6_bucket_monotone_witness :
    (0 : ℚ) < 1 ∧ (100000 : Int) ∈ thresholds ∧ (200000 : Int) ∈ thresholds ∧
      (100000 : Int) < 200000 ∧ bucketCov [150000] 1 200000 ≤ bucketCov [150000] 1 100000 :=
  ⟨by norm_num, by decide, by decide, by decide,
    C6_bucket_monotone [150000] 1 (by norm_num) 100000 200000 (by decide) (by decide) (by decide)⟩

/-- Claim C2 (counterexample): a file whose single data row has length 0
yields an emitted record with `read_N50 = 0` and every coverage and bucket
field `0.0`, although its read-length pool is non-empty — so the all-zero
combination does not only arise from an empty pool. -/
theorem C2_counterexample :
    processSingleFile ⟨"z", some ["sequence_length_template", "0"]⟩ 1000000000 =
      some ⟨"z", "", 0, 0, 0, 0, 0, 0, 0, 0, 0, 0⟩ := by
  have hscan : singleScan ⟨"z", some ["sequence_length_template", "0"]⟩ =
      some ⟨[0], 0, none⟩ := by decide
  rw [processSingleFile_eq_some 1000000000 hscan (by decide)]
  show some (mkRecord "z" "" [0] 0 1000000000) =
    some (⟨"z", "", 0, 0, 0, 0, 0, 0, 0, 0, 0, 0⟩ : SummaryRecord)
  rw [mkRecord_eval "z" "" [0] 0 1000000000 0 0 0 0 0 0 0 0 0 0
    (by norm_num [show sortDesc [(0 : Int)] = [0] from by decide, computeN50, n50Loop])
    (by norm_num [round2_zero])
    (by norm_num [round2_zero])
    (bucket_zero _ (by decide)) (bucket_zero _ (by decide)) (bucket_zero _ (by decide))
    (bucket_zero _ (by decide)) (bucket_zero _ (by decide)) (bucket_zero _ (by decide))
    (by decide)]

/-- Claim C2 (amended): whenever either analyzer emits a record and the
collected byte total is positive, the record has a strictly positive
`read_N50` — so an all-zero record can only come from a pool whose total
is not positive (for example a pool of zero-length reads), and never from
a pool with positive total. -/
theorem C2_amended :
    (∀ (f : SummaryFile) (gs : ℚ) (st : SingleState) (r : SummaryRecord),
        singleScan f = some st → 0 < st.bases → processSingleFile f gs = some r →
        0 < r.read_N50) ∧
    (∀ (fs : List SummaryFile) (gs : ℚ) (r : SummaryRecord),
        0 < (aggScan fs).bases → processAggregatedFiles fs gs = some r →
        0 < r.read_N50) := by
  constructor
  · intro f gs st r hscan hpos hrec
    unfold processSingleFile at hrec
    rw [hscan] at hrec
    simp only at hrec
    by_cases hne : st.read_lengths = []
    · rw [if_pos hne] at hrec
      exact absurd hrec (by simp)
    · rw [if_neg hne, Option.some.injEq] at hrec
      have hinv := singleScan_bases hscan
      rw [← hrec]
      exact computeN50_pos hpos hinv
  · intro fs gs r hpos hrec
    simp only [processAggregatedFiles] at hrec
    by_cases hne : (aggScan fs).read_lengths = []
    · rw [if_pos hne] at hrec
      exact absurd hrec (by simp)
    · rw [if_neg hne, Option.some.injEq] at hrec
      have hinv := aggScan_bases fs
      rw [← hrec]
      exact computeN50_pos hpos hinv

/-- Witness for C2 (amended) on a one-row file of length 5. -/
theorem C2_amended_witness :
    0 < (mkRecord "five.txt" "" [5] 5 1000000000).read_N50 := by
  apply C2_amended.1 ⟨"five.txt", some ["sequence_length_template", "5"]⟩ 1000000000
      ⟨[5], 5, none⟩ _ (by decide) (by decide)
  exact @processSingleFile_eq_some ⟨"five.txt", some ["sequence_length_template", "5"]⟩
    ⟨[5], 5, none⟩ 1000000000 (by decide) (by decide)

/-- Claim C5: the single-file analyzer returns no record exactly when the
collected pool is empty — in particular for an unopenable file, a file
whose header lacks the required column, a file with no data rows, and a
file whose every data row fails the length parse — and any record it does
return carries the input path as its `File` label. -/
theorem C5_absence (f : SummaryFile) (gs : ℚ) :
    (processSingleFile f gs = none ↔ collectedLengths f = []) ∧
    (∀ r : SummaryRecord, processSingleFile f gs = some r → r.File = f.path) ∧
    (f.content = none → processSingleFile f gs = none) ∧
    (∀ lines, f.content = some lines →
      pyIndex (pySplit (lines.headD "")) "sequence_length_template" = none →
      processSingleFile f gs = none) ∧
    (∀ lines, f.content = some lines → lines.tail = [] →
      processSingleFile f gs = none) ∧
    (∀ lines li, f.content = some lines →
      pyIndex (pySplit (lines.headD "")) "sequence_length_template" = some li →
      (∀ l ∈ lines.tail, pyInt? ((pySplit l).getD li "") = none) →
      processSingleFile f gs = none) := by
  refine ⟨?_, ?_, ?_, ?_, ?_, ?_⟩
  · unfold processSingleFile collectedLengths
    cases hscan : singleScan f with
    | none => simp
    | some st =>
      by_cases hne : st.read_lengths = []
      · simp [hne]
      · simp [hne]
  · intro r hr
    unfold processSingleFile at hr
    cases hscan : singleScan f with
    | none =>
      rw [hscan] at hr
      exact absurd hr (by simp)
    | some st =>
      rw [hscan] at hr
      simp only at hr
      by_cases hne : st.read_lengths = []
      · rw [if_pos hne] at hr
        exact absurd hr (by simp)
      · rw [if_neg hne, Option.some.injEq] at hr
        rw [← hr]
        rfl
  · intro h
    unfold processSingleFile singleScan
    rw [h]
  · intro lines hc hli
    unfold processSingleFile singleScan
    rw [hc]
    simp only [hli]
  · intro lines hc htail
    unfold processSingleFile singleScan
    rw [hc]
    simp only
    rw [htail]
    cases pyIndex (pySplit (lines.headD "")) "sequence_length_template" <;> simp
  · intro lines li hc hli hall
    have hlen : (lines.tail.foldl
        (stepSingle li (findFilenameIndex (pySplit (lines.headD "")))) ⟨[], 0, none⟩).read_lengths = [] :=
      foldl_stepSingle_lengths_of_none li
        (findFilenameIndex (pySplit (lines.headD ""))) lines.tail ⟨[], 0, none⟩ hall
    unfold processSingleFile singleScan
    rw [hc]
    simp only [hli]
    rw [hlen]
    simp

/-- Witness for C5: an unopenable file yields no record. -/
theorem C5_absence_witness :
    processSingleFile ⟨"unreadable.txt", none⟩ 1000000000 = none :=
  (C5_absence ⟨"unreadable.txt", none⟩ 1000000000).2.2.1 rfl

/-- Claim C3 (counterexample): in this file the first structurally valid
data row (`"7"`) is too short at the filename index, yet the flowcell id is
not the empty string: it is taken from the later row `"8 FC9_x.pod5"`. -/
theorem C3_counterexample :
    processSingleFile
      ⟨"c3", some ["sequence_length_template filename", "7", "8 FC9_x.pod5"]⟩ 1 =
      some ⟨"c3", "FC9", 8, 0, 15, 0, 0, 0, 0, 0, 0, 0⟩ := by
  have hscan : singleScan
      ⟨"c3", some ["sequence_length_template filename", "7", "8 FC9_x.pod5"]⟩ =
      some ⟨[7, 8], 15, some "FC9"⟩ := by decide
  rw [processSingleFile_eq_some 1 hscan (by decide)]
  show some (mkRecord "c3" "FC9" [7, 8] 15 1) =
    some (⟨"c3", "FC9", 8, 0, 15, 0, 0, 0, 0, 0, 0, 0⟩ : SummaryRecord)
  rw [mkRecord_eval "c3" "FC9" [7, 8] 15 1 8 0 15 0 0 0 0 0 0 0
    (by norm_num [show sortDesc [(7 : Int), 8] = [8, 7] from by decide, computeN50, n50Loop])
    (round2_small (by norm_num) (by norm_num))
    (by rw [round2_mul100_int _ 1500 (by norm_num)]; norm_num)
    (bucket_zero _ (by decide)) (bucket_zero _ (by decide)) (bucket_zero _ (by decide))
    (bucket_zero _ (by decide)) (bucket_zero _ (by decide)) (bucket_zero _ (by decide))
    (by decide)]

/-- Claim C3 (amended): the flowcell id of a file is taken from the first
structurally valid data row that also has enough fields at the filename
index — later rows are consulted only until such a row is found, and the
capture happens at most once; if the filename column is absent or no valid
row is long enough there, the id is the empty string. -/
theorem C3_amended :
    (∀ (f : SummaryFile) (lines : List String) (li : Nat),
      f.content = some lines →
      pyIndex (pySplit (lines.headD "")) "sequence_length_template" = some li →
      Option.map SingleState.flowcell_id (singleScan f) =
        some (flowcellSpec li (findFilenameIndex (pySplit (lines.headD ""))) lines.tail)) ∧
    (∀ (f : SummaryFile) (lines : List String) (li : Nat) (gs : ℚ) (r : SummaryRecord),
      f.content = some lines →
      pyIndex (pySplit (lines.headD "")) "sequence_length_template" = some li →
      processSingleFile f gs = some r →
      r.flowcell_id =
        (flowcellSpec li (findFilenameIndex (pySplit (lines.headD ""))) lines.tail).getD "") := by
  constructor
  · intro f lines li hc hli
    exact singleScan_flowcell hc hli
  · intro f lines li gs r hc hli hrec
    have hkey := singleScan_flowcell hc hli
    unfold processSingleFile at hrec
    cases hscan : singleScan f with
    | none =>
      rw [hscan] at hrec
      exact absurd hrec (by simp)
    | some st =>
      rw [hscan] at hrec
      simp only at hrec
      rw [hscan] at hkey
      have hkey2 : st.flowcell_id =
          flowcellSpec li (findFilenameIndex (pySplit (lines.headD ""))) lines.tail := by
        have hk : some st.flowcell_id =
            some (flowcellSpec li (findFilenameIndex (pySplit (lines.headD ""))) lines.tail) := hkey
        exact Option.some.inj hk
      by_cases hne : st.read_lengths = []
      · rw [if_pos hne] at hrec
        exact absurd hrec (by simp)
      · rw [if_neg hne, Option.some.injEq] at hrec
        rw [← hrec]
        show st.flowcell_id.getD "" = _
        rw [hkey2]

/-- Witness for C3 (amended) on a concrete file. -/
theorem C3_amended_witness :
    Option.map SingleState.flowcell_id
        (singleScan ⟨"c3w", some ["sequence_length_template filename", "7", "8 FC9_x.pod5"]⟩) =
      some (flowcellSpec 0
        (findFilenameIndex (pySplit
          ((["sequence_length_template filename", "7", "8 FC9_x.pod5"] : List String).headD "")))
        (["sequence_length_template filename", "7", "8 FC9_x.pod5"] : List String).tail) :=
  C3_amended.1 ⟨"c3w", some ["sequence_length_template filename", "7", "8 FC9_x.pod5"]⟩
    _ 0 rfl (by decide)

lemma aggregate_singleton (f : SummaryFile) (gs : ℚ) :
    processAggregatedFiles [f] gs = processSingleFile f gs := by
  by_cases hbad : badAggFile f
  · have h1 : aggScan [f] = ⟨[], 0, []⟩ := by
      unfold aggScan
      rw [List.foldl_cons, List.foldl_nil, stepAggFile_bad _ hbad]
    have h2 : singleScan f = none := by
      unfold singleScan
      rcases hbad with h | ⟨lines, hc, hli⟩
      · rw [h]
      · rw [hc]
        simp only [hli]
    unfold processSingleFile
    rw [h2]
    simp only [processAggregatedFiles, h1]
    simp
  · unfold badAggFile at hbad
    push_neg at hbad
    obtain ⟨hc1, hc2⟩ := hbad
    cases hc : f.content with
    | none => exact absurd hc hc1
    | some lines =>
      cases hli : pyIndex (pySplit (lines.headD "")) "sequence_length_template" with
      | none => exact absurd hli (hc2 lines hc)
      | some li =>
        obtain ⟨hl, hb⟩ := foldl_lengths_agree li
          (findFilenameIndex (pySplit (lines.headD ""))) lines.tail
          ⟨[], 0, [], true⟩ ⟨[], 0, none⟩ rfl rfl
        have hfc := foldl_stepSingle_flowcell li
          (findFilenameIndex (pySplit (lines.headD ""))) lines.tail ⟨[], 0, none⟩ rfl
        have hids := foldl_stepAggLine_true li
          (findFilenameIndex (pySplit (lines.headD ""))) lines.tail ⟨[], 0, [], true⟩ rfl
        have hagg : aggScan [f] = stepAggFile ⟨[], 0, []⟩ f := by
          unfold aggScan
          rw [List.foldl_cons, List.foldl_nil]
        have hstep := stepAggFile_eq ⟨[], 0, []⟩ hc hli
        have hS := singleScan_eq hc hli
        unfold processSingleFile
        rw [hS]
        simp only [processAggregatedFiles, hagg, hstep]
        cases hspec : flowcellSpec li (findFilenameIndex (pySplit (lines.headD ""))) lines.tail with
        | none =>
          rw [hspec] at hids hfc
          simp only at hids hfc
          rw [hl, hb, hids, hfc]
          simp [joinStr]
        | some x =>
          rw [hspec] at hids hfc
          simp only at hids hfc
          rw [hl, hb, hids, hfc]
          simp [addId, sortStrings, List.insertionSort, List.orderedInsert, joinStr]

/-- Claim C4: aggregating a single file produces exactly the single-file
analyzer result: every computed field agrees, the file label is the lone
path, and the semicolon-joined flowcell set of one file equals the
single-file flowcell id. -/
theorem C4_aggregate_singleton (f : SummaryFile) (gs : ℚ) :
    processAggregatedFiles [f] gs = processSingleFile f gs :=
  aggregate_singleton f gs

/-- Claim C7: a file that cannot be opened or lacks the required column
contributes nothing in aggregate mode: inserting it anywhere in the list
leaves every computed field of the result unchanged (and a record is still
produced exactly when the rest of the list yields a non-empty pool). -/
theorem C7_bad_file_skipped (L1 L2 : List SummaryFile) (f : SummaryFile) (gs : ℚ)
    (hbad : badAggFile f) :
    optionAgreeExceptFile (processAggregatedFiles (L1 ++ f :: L2) gs)
      (processAggregatedFiles (L1 ++ L2) gs) := by
  have hstate : aggScan (L1 ++ f :: L2) = aggScan (L1 ++ L2) := by
    unfold aggScan
    rw [List.foldl_append, List.foldl_append, List.foldl_cons, stepAggFile_bad _ hbad]
  simp only [processAggregatedFiles, hstate]
  by_cases hne : (aggScan (L1 ++ L2)).read_lengths = []
  · rw [if_pos hne, if_pos hne]
    simp [optionAgreeExceptFile]
  · rw [if_neg hne, if_neg hne]
    show agreeExceptFile _ _
    unfold agreeExceptFile mkRecord
    exact ⟨rfl, rfl, rfl, rfl, rfl, rfl, rfl, rfl, rfl, rfl, rfl⟩

/-- Witness for C7: an unopenable file appended to one good file. -/
theorem C7_bad_file_skipped_witness :
    optionAgreeExceptFile
      (processAggregatedFiles
        ([⟨"good", some ["sequence_length_template", "7"]⟩] ++ ⟨"bad", none⟩ :: []) 1)
      (processAggregatedFiles ([⟨"good", some ["sequence_length_template", "7"]⟩] ++ []) 1) :=
  C7_bad_file_skipped [⟨"good", some ["sequence_length_template", "7"]⟩] [] ⟨"bad", none⟩ 1
    (Or.inl rfl)

/-- Claim C8 (counterexample): aggregating one file with no usable filename
column and one file with id `"X"` yields `flowcell_id = "X"`, not `";X"`:
the column-less file contributes nothing to the id set, not an empty
string. -/
theorem C8_counterexample :
    processAggregatedFiles
      [⟨"A", some ["sequence_length_template", "10"]⟩,
       ⟨"B", some ["sequence_length_template filename", "20 X_1.pod5"]⟩] 1 =
      some ⟨"A,B", "X", 20, 0, 30, 0, 0, 0, 0, 0, 0, 0⟩ := by
  have hagg : aggScan
      [⟨"A", some ["sequence_length_template", "10"]⟩,
       ⟨"B", some ["sequence_length_template filename", "20 X_1.pod5"]⟩] =
      ⟨[10, 20], 30, ["X"]⟩ := by decide
  rw [processAggregatedFiles_eq_some _ 1 (by rw [hagg]; decide), hagg]
  show some (mkRecord "A,B" "X" [10, 20] 30 1) =
    some (⟨"A,B", "X", 20, 0, 30, 0, 0, 0, 0, 0, 0, 0⟩ : SummaryRecord)
  rw [mkRecord_eval "A,B" "X" [10, 20] 30 1 20 0 30 0 0 0 0 0 0 0
    (by norm_num [show sortDesc [(10 : Int), 20] = [20, 10] from by decide, computeN50, n50Loop])
    (round2_small (by norm_num) (by norm_num))
    (by rw [round2_mul100_int _ 3000 (by norm_num)]; norm_num)
    (bucket_zero _ (by decide)) (bucket_zero _ (by decide)) (bucket_zero _ (by decide))
    (bucket_zero _ (by decide)) (bucket_zero _ (by decide)) (bucket_zero _ (by decide))
    (by decide)]

/-- Claim C8 (amended): a file with no usable filename column contributes
nothing at all to the flowcell-id set (not an empty string), and the
emitted record's `flowcell_id` is the semicolon-join of the
lexicographically sorted id set, with the empty string used only when the
set itself is empty. -/
theorem C8_amended :
    (∀ (st : AggState) (f : SummaryFile) (lines : List String),
        f.content = some lines →
        findFilenameIndex (pySplit (lines.headD "")) = none →
        (stepAggFile st f).flowcell_ids = st.flowcell_ids) ∧
    (∀ (fs : List SummaryFile) (gs : ℚ) (r : SummaryRecord),
        processAggregatedFiles fs gs = some r →
        r.flowcell_id =
          (if (aggScan fs).flowcell_ids = [] then ""
           else joinStr ";" (sortStrings (aggScan fs).flowcell_ids))) := by
  constructor
  · intro st f lines hc hfidx
    unfold stepAggFile
    rw [hc]
    cases hli : pyIndex (pySplit (lines.headD "")) "sequence_length_template" with
    | none => simp only [hli]
    | some li =>
      simp only [hli]
      rw [hfidx]
      have hids := foldl_stepAggLine_true li none lines.tail
        ⟨st.read_lengths, st.bases, st.flowcell_ids, true⟩ rfl
      simp only [flowcellSpec] at hids
      exact hids
  · intro fs gs r hrec
    simp only [processAggregatedFiles] at hrec
    by_cases hne : (aggScan fs).read_lengths = []
    · rw [if_pos hne] at hrec
      exact absurd hrec (by simp)
    · rw [if_neg hne, Option.some.injEq] at hrec
      rw [← hrec]
      rfl

/-- Witness for C8 (amended): a column-less file leaves an existing id set
unchanged. -/
theorem C8_amended_witness :
    (stepAggFile ⟨[], 0, ["Y"]⟩ ⟨"A", some ["sequence_length_template", "10"]⟩).flowcell_ids =
      ["Y"] :=
  C8_amended.1 ⟨[], 0, ["Y"]⟩ ⟨"A", some ["sequence_length_template", "10"]⟩
    ["sequence_length_template", "10"] rfl (by decide)

/-- Claim C9: a data row whose length field parses as a negative integer is
accepted into the pool and the byte total by both analyzers, so the emitted
record's `Gb` and `coverage` are negative. -/
theorem C9_negative_lengths :
    singleScan ⟨"neg.txt", some ["sequence_length_template", "-5000000000"]⟩ =
      some ⟨[-5000000000], -5000000000, none⟩ ∧
    processSingleFile ⟨"neg.txt", some ["sequence_length_template", "-5000000000"]⟩ 1000000000 =
      some ⟨"neg.txt", "", 0, -5, -5, 0, 0, 0, 0, 0, 0, 0⟩ ∧
    processAggregatedFiles [⟨"neg.txt", some ["sequence_length_template", "-5000000000"]⟩]
        1000000000 =
      some ⟨"neg.txt", "", 0, -5, -5, 0, 0, 0, 0, 0, 0, 0⟩ ∧
    ((-5 : ℚ) < 0) := by
  have hscan : singleScan ⟨"neg.txt", some ["sequence_length_template", "-5000000000"]⟩ =
      some ⟨[-5000000000], -5000000000, none⟩ := by decide
  have hsingle : processSingleFile
      ⟨"neg.txt", some ["sequence_length_template", "-5000000000"]⟩ 1000000000 =
      some ⟨"neg.txt", "", 0, -5, -5, 0, 0, 0, 0, 0, 0, 0⟩ := by
    rw [processSingleFile_eq_some 1000000000 hscan (by decide)]
    show some (mkRecord "neg.txt" "" [-5000000000] (-5000000000) 1000000000) =
      some (⟨"neg.txt", "", 0, -5, -5, 0, 0, 0, 0, 0, 0, 0⟩ : SummaryRecord)
    rw [mkRecord_eval "neg.txt" "" [-5000000000] (-5000000000) 1000000000 0 (-5) (-5) 0 0 0 0 0 0 0
      (by norm_num [show sortDesc [(-5000000000 : Int)] = [-5000000000] from by decide,
        computeN50, n50Loop])
      (by rw [round2_mul100_int _ (-500) (by norm_num)]; norm_num)
      (by rw [round2_mul100_int _ (-500) (by norm_num)]; norm_num)
      (bucket_zero _ (by decide)) (bucket_zero _ (by decide)) (bucket_zero _ (by decide))
      (bucket_zero _ (by decide)) (bucket_zero _ (by decide)) (bucket_zero _ (by decide))
      (by decide)]
  refine ⟨hscan, hsingle, ?_, by norm_num⟩
  rw [aggregate_singleton]
  exact hsingle

/-- Claim C10: flowcell-id capture happens before length parsing: the first
data row `"abc FC1_x.pod5"` supplies the flowcell id `"FC1"` although its
length field does not parse, so the emitted record's id comes from a row
that contributed to no metric (the pool holds only the later row's 100). -/
theorem C10_flowcell_before_parse :
    singleScan ⟨"p", some ["sequence_length_template filename",
        "abc FC1_x.pod5", "100 FC2_y.pod5"]⟩ =
      some ⟨[100], 100, some "FC1"⟩ ∧
    pyInt? "abc" = none ∧
    processSingleFile ⟨"p", some ["sequence_length_template filename",
        "abc FC1_x.pod5", "100 FC2_y.pod5"]⟩ 1 =
      some ⟨"p", "FC1", 100, 0, 100, 0, 0, 0, 0, 0, 0, 0⟩ := by
  have hscan : singleScan ⟨"p", some ["sequence_length_template filename",
      "abc FC1_x.pod5", "100 FC2_y.pod5"]⟩ = some ⟨[100], 100, some "FC1"⟩ := by decide
  refine ⟨hscan, by decide, ?_⟩
  rw [processSingleFile_eq_some 1 hscan (by decide)]
  show some (mkRecord "p" "FC1" [100] 100 1) =
    some (⟨"p", "FC1", 100, 0, 100, 0, 0, 0, 0, 0, 0, 0⟩ : SummaryRecord)
  rw [mkRecord_eval "p" "FC1" [100] 100 1 100 0 100 0 0 0 0 0 0 0
    (by norm_num [show sortDesc [(100 : Int)] = [100] from by decide, computeN50, n50Loop])
    (round2_small (by norm_num) (by norm_num))
    (by rw [round2_mul100_int _ 10000 (by norm_num)]; norm_num)
    (bucket_zero _ (by decide)) (bucket_zero _ (by decide)) (bucket_zero _ (by decide))
    (bucket_zero _ (by decide)) (bucket_zero _ (by decide)) (bucket_zero _ (by decide))
    (by decide)]

end OntQc
